import Mathlib

/-!
Shallow embedding of the clickhouse tsdb plugin
(`pkg/tsdb/clickhouse/query_parser.go` and `pkg/tsdb/clickhouse/clickhouse.go`).

Conventions of the embedding:
* Go functions that can only return normally become plain Lean functions.
* Go functions that can abort at run time (index out of range on a `nil`
  slice) return `Option`, with `none` for the abort, or use the `Outcome`
  type below, whose `aborted` constructor models the abort.
* The wall clock (`time.Now().Unix()`) and everything behind the HTTP
  transport are external collaborators; they are passed in as parameters.
* Go `int`/`int64` are modelled as `Int`, Go `float64` values that the code
  parses out of decimal strings as the exact-decimal type `GoFloat`.  None
  of the verified claims exercises integer overflow or binary
  floating-point rounding.
-/

namespace ClickhousePlugin

/-! ## Character and string helpers (Go regexp / strings / strconv semantics) -/

/-- Word character class of Go's regexp `\w`: ASCII letters, digits and
underscore. -/
def isWordChar (c : Char) : Bool :=
  c.isAlphanum || c == '_'

/-- Value of a list of decimal digit characters (most significant first),
as read by `strconv.Atoi` on an all-digit string. -/
def digitsToNat (l : List Char) : Nat :=
  l.foldl (fun a c => a * 10 + (c.toNat - 48)) 0

/-- Substring test: `strContains s pat` holds exactly when `pat` occurs in
`s`.  This is `regexp.MatchString` for a pattern that is literal text. -/
def strContains (s pat : String) : Bool :=
  s.toList.tails.any (fun t => pat.toList.isPrefixOf t)

/-- Whether the string contains a dash.  `strings.Split(s, "-")` returns a
slice of length greater than one exactly in this case, which is the only
thing `GetTimeRangeAsTimestamps` asks of the split. -/
def containsDash (s : String) : Bool :=
  s.toList.any (fun c => c == '-')

/-- Leading and trailing whitespace removal, modelling `strings.TrimSpace`
(on the ASCII whitespace the queries of this development contain). -/
def trimSpace (s : String) : String :=
  String.mk (((s.toList.dropWhile Char.isWhitespace).reverse.dropWhile
    Char.isWhitespace).reverse)

/-- Replacement of every (leftmost, non-overlapping) occurrence of `pat` in
the input by `rep`, fuelled by the input length so the recursion is
structural; with fuel at least the input length it scans the whole input.
This is `regexp.ReplaceAllString` for a literal-text pattern whose
replacement contains no `$` group references, as in all call sites below. -/
def replaceFuel (pat rep : List Char) : Nat → List Char → List Char
  | 0, l => l
  | _ + 1, [] => []
  | fuel + 1, c :: rest =>
    if pat.isPrefixOf (c :: rest) ∧ 0 < pat.length then
      rep ++ replaceFuel pat rep fuel (rest.drop (pat.length - 1))
    else
      c :: replaceFuel pat rep fuel rest

/-- String-level wrapper of `replaceFuel`. -/
def replaceAll (s pat rep : String) : String :=
  String.mk (replaceFuel pat.toList rep.toList s.toList.length s.toList)

/-- Go's `string(i)` conversion from an integer: the one-rune string holding
the code point `i`, or `"�"` when `i` is not a valid code point. -/
def goStringOfInt (n : Int) : String :=
  if 0 ≤ n ∧ (n < 55296 ∨ (57343 < n ∧ n < 1114112)) then
    String.mk [Char.ofNat n.toNat]
  else
    String.mk [Char.ofNat 65533]

/-- Exact decimal number, the embedding of the `float64` values this code
obtains from `strconv.ParseFloat` on decimal input: the represented value
is `num / 10 ^ den10`.  Values built by `mkGoFloat` are canonical (`den10`
is zero, or `num` is nonzero and not divisible by ten), so structural
equality coincides with numeric equality.  Binary floating-point rounding
is outside the embedded domain: the development only exercises values that
`float64` represents exactly. -/
structure GoFloat where
  num : Int
  den10 : Nat
deriving DecidableEq, Repr

/-- Ten to a natural power, as a structurally recursive `Nat`. -/
def pow10N : Nat → Nat
  | 0 => 1
  | n + 1 => 10 * pow10N n

/-- Ten to a natural power, as a structurally recursive `Int`. -/
def pow10 : Nat → Int
  | 0 => 1
  | n + 1 => 10 * pow10 n

/-- Removal of common factors of ten from `num / 10 ^ den10`; the first
argument is recursion fuel (the initial `den10` suffices). -/
def stripTens : Nat → Int → Nat → GoFloat
  | 0, n, d => ⟨n, d⟩
  | fuel + 1, n, d =>
    if 0 < d ∧ n % 10 = 0 then stripTens fuel (n / 10) (d - 1) else ⟨n, d⟩

/-- Canonicalizing constructor for `GoFloat`. -/
def mkGoFloat (n : Int) (d : Nat) : GoFloat :=
  if n = 0 then ⟨0, 0⟩ else stripTens d n d

/-- Numeric strict order on `GoFloat`, by cross multiplication. -/
def GoFloat.ltB (a b : GoFloat) : Bool :=
  decide (a.num * pow10 b.den10 < b.num * pow10 a.den10)

instance (n : Nat) : OfNat GoFloat n :=
  ⟨⟨Int.ofNat n, 0⟩⟩

/-- Decimal-literal fragment of `strconv.ParseFloat`: optional sign, digits
with an optional fractional part and an optional decimal exponent.  The
hexadecimal, `Inf`/`NaN` and digit-separator forms that `ParseFloat` also
accepts never arise in this development's inputs and are outside the
embedded domain. -/
def goParseFloat (s : String) : Option GoFloat :=
  let l := s.toList
  let sgn : Int × List Char :=
    match l with
    | '+' :: rest => (1, rest)
    | '-' :: rest => (-1, rest)
    | _ => (1, l)
  let ip := sgn.2.takeWhile Char.isDigit
  let rest1 := sgn.2.dropWhile Char.isDigit
  let frac : List Char × List Char :=
    match rest1 with
    | '.' :: r => (r.takeWhile Char.isDigit, r.dropWhile Char.isDigit)
    | _ => ([], rest1)
  if ip.isEmpty ∧ frac.1.isEmpty then none
  else
    let mantNum : Int :=
      sgn.1 * ((digitsToNat ip * pow10N frac.1.length + digitsToNat frac.1 : Nat) : Int)
    match frac.2 with
    | [] => some (mkGoFloat mantNum frac.1.length)
    | e :: r =>
      if e == 'e' ∨ e == 'E' then
        let esgn : Bool × List Char :=
          match r with
          | '+' :: r2 => (false, r2)
          | '-' :: r2 => (true, r2)
          | _ => (false, r)
        let ed := esgn.2.takeWhile Char.isDigit
        let r2 := esgn.2.dropWhile Char.isDigit
        if ed.isEmpty ∨ ¬ r2.isEmpty then none
        else
          let ev := digitsToNat ed
          if esgn.1 then some (mkGoFloat mantNum (frac.1.length + ev))
          else some (mkGoFloat (mantNum * pow10 ev) frac.1.length)
      else none

/-! ## Interval resolver (`query_parser.go`) -/

/-- The `intervalSteps` map: seconds per unit, zero (the Go zero value of a
missing map key) for an unknown unit. -/
def intervalSteps (u : String) : Nat :=
  if u = "s" then 1
  else if u = "m" then 60
  else if u = "h" then 3600
  else if u = "d" then 86400
  else 0

/-- Submatch extraction of `regexp.MustCompile` applied to `^(\d+)(\w+)$`:
the string matches exactly when it has length at least two, consists of
word characters only, and starts with a digit (since `\d` is contained in
`\w`, the two groups can then always split it).  The greedy `\d+` captures
the maximal digit prefix, backing off one character when that prefix is
the whole string so that `\w+` still gets one character. -/
def intervalRegexGroups (s : String) : Option (String × String) :=
  let l := s.toList
  if 2 ≤ l.length ∧ l.all isWordChar ∧ (l.headD ' ').isDigit then
    let d := (l.takeWhile Char.isDigit).length
    let k := if d = l.length then l.length - 1 else d
    some (String.mk (l.take k), String.mk (l.drop k))
  else none

/-- Transcription of `QueryParser.IntervalToSeconds`.  `none` models the Go
run-time abort: when the regexp does not match, `FindAllStringSubmatch`
returns `nil` and the code indexes `matches[0]`, an index out of range. -/
def IntervalToSeconds (intervalStr : String) : Option Nat :=
  if intervalStr = "" then
    some 1
  else
    match intervalRegexGroups intervalStr with
    | none => none
    | some g =>
      let value := digitsToNat g.1.toList
      let step := intervalSteps g.2
      if 0 < value ∧ 0 < step then some (value * step) else some 1

/-! ## Data model of the templater inputs -/

/-- The per-query `simplejson` model, restricted to the keys the plugin
reads.  A field is `none` when `model.Get(key).String()` (respectively
`.Int()`) would return a non-nil error, that is when the key is absent or
its value has the wrong type. -/
structure Model where
  query : Option String
  table : Option String
  database : Option String
  dateTimeColDataType : Option String
  dateColDataType : Option String
  dateTimeType : Option String
  interval : Option String
  intervalFactor : Option Int
  format : Option String

/-- `tsdb.TimeRange`: the raw `from`/`to` strings shared by a batch. -/
structure TimeRange where
  From : String
  To : String

/-- Error cases the query parser can return (as Go `error` values, as
opposed to run-time aborts). -/
inductive QPErr
  | missingQuery
  | noTimeColumn
  | unsupportedPlaceholder
deriving DecidableEq, Repr

/-- Result of a Go computation that can return a value, return an error, or
abort the process at run time (`aborted` models a Go panic). -/
inductive Outcome (ε α : Type)
  | ok : α → Outcome ε α
  | err : ε → Outcome ε α
  | aborted : Outcome ε α
deriving DecidableEq, Repr

instance {ε α : Type} [DecidableEq ε] [DecidableEq α] : DecidableEq (Except ε α) :=
  fun a b =>
    match a, b with
    | .error e, .error f =>
      match decEq e f with
      | isTrue h => isTrue (h ▸ rfl)
      | isFalse h => isFalse (fun c => h (Except.error.inj c))
    | .ok x, .ok y =>
      match decEq x y with
      | isTrue h => isTrue (h ▸ rfl)
      | isFalse h => isFalse (fun c => h (Except.ok.inj c))
    | .error _, .ok _ => isFalse (fun c => Except.noConfusion c)
    | .ok _, .error _ => isFalse (fun c => Except.noConfusion c)

/-! ## Query templater (`query_parser.go`) -/

/-- Transcription of `QueryParser.GetDateTimeColumn`: the datetime column
name is preferred with its declared type (default `"DATETIME"`), otherwise
the date column name with type `"DATE"`; when neither model key is readable
the lookup error is propagated. -/
def GetDateTimeColumn (m : Model) : Except Unit (String × String) :=
  let dateTimeColumnName := m.dateTimeColDataType.getD ""
  let dateColumnName := m.dateColDataType.getD ""
  if m.dateTimeColDataType.isNone ∧ m.dateColDataType.isNone then
    .error ()
  else
    let dateTimeType := m.dateTimeType.getD "DATETIME"
    if dateTimeColumnName = "" then .ok (dateColumnName, "DATE")
    else .ok (dateTimeColumnName, dateTimeType)

/-- Transcription of `QueryParser.GetInterval`: the interval factor
(default 1 when absent or unreadable) times the resolved interval seconds.
`none` is the abort inherited from `IntervalToSeconds`. -/
def GetInterval (m : Model) : Option Int :=
  let intervalFactor := m.intervalFactor.getD 1
  (IntervalToSeconds (m.interval.getD "")).map (fun s => intervalFactor * (s : Int))

/-- The replacement text `ParseInterval` produces for `$interval`: the Go
source converts the integer with `string(...)`, a code-point conversion. -/
def intervalReplacement (m : Model) : Option String :=
  (GetInterval m).map goStringOfInt

/-- Transcription of `QueryParser.ParseInterval` (which returns no error):
`none` is the abort inherited from `GetInterval`. -/
def ParseInterval (q : String) (m : Model) : Option String :=
  if strContains q "$interval" = false then
    some q
  else
    (intervalReplacement m).map (fun r => replaceAll q "$interval" r)

/-- The `$timeSeries` bucketing text built by `ParseTimeSeries`'s
`fmt.Sprintf`: the `toUInt32` widening is applied exactly when the resolved
type is `"DATETIME"`. -/
def timeSeriesExpr (col : String) (i : Int) (ty : String) : String :=
  if ty = "DATETIME" then
    "(intDiv(toUInt32(" ++ col ++ "), " ++ toString i ++ ") * " ++ toString i ++ ") * 1000"
  else
    "(intDiv(" ++ col ++ ", " ++ toString i ++ ") * " ++ toString i ++ ") * 1000"

/-- Transcription of `QueryParser.ParseTimeSeries`. -/
def ParseTimeSeries (q : String) (m : Model) : Outcome QPErr String :=
  if strContains q "$timeSeries" = false then
    .ok q
  else
    match GetDateTimeColumn m with
    | .error _ => .err .noTimeColumn
    | .ok colTy =>
      match GetInterval m with
      | none => .aborted
      | some i => .ok (replaceAll q "$timeSeries" (timeSeriesExpr colTy.1 i colTy.2))

/-- Transcription of `QueryParser.ParseTable`: an unreadable `table` key is
silently ignored (the query is returned unchanged with a nil error), an
unreadable `database` key defaults to `"default"`. -/
def ParseTable (q : String) (m : Model) : String :=
  if strContains q "$table" = false then
    q
  else
    match m.table with
    | none => q
    | some table =>
      let database := m.database.getD "default"
      replaceAll q "$table" (database ++ "." ++ table)

/-- Transcription of `QueryParser.GetTimeRangeAsTimestamps`, with the wall
clock `time.Now().Unix()` passed in as `now`.  `from` is `now` minus the
resolved `From` interval; `to` is `now`, lowered by the resolved `To`
interval when `To` contains a dash (`strings.Split` length check); each is
printed raw for a datetime column and `toDate(...)`-wrapped otherwise.
`none` is the abort inherited from `IntervalToSeconds`. -/
def GetTimeRangeAsTimestamps (tr : TimeRange) (isDateTime : Bool) (now : Int) :
    Option (String × String) :=
  match IntervalToSeconds tr.From with
  | none => none
  | some fs =>
    let fromV : Int := now - (fs : Int)
    let toOpt : Option Int :=
      if containsDash tr.To then
        (IntervalToSeconds tr.To).map (fun ts => now - (ts : Int))
      else
        some now
    match toOpt with
    | none => none
    | some toV =>
      let fmtI := fun (n : Int) =>
        if isDateTime then toString n else "toDate(" ++ toString n ++ ")"
      some (fmtI fromV, fmtI toV)

/-- Transcription of `QueryParser.ParseTimeFilter`: the predicate is
`col >= from` when the range's `To` is the literal `"now"`, and
`col BETWEEN from AND to` otherwise. -/
def ParseTimeFilter (q : String) (m : Model) (tr : TimeRange) (now : Int) :
    Outcome QPErr String :=
  if strContains q "$timeFilter" = false then
    .ok q
  else
    match GetDateTimeColumn m with
    | .error _ => .err .noTimeColumn
    | .ok colTy =>
      match GetTimeRangeAsTimestamps tr (colTy.2 = "DATETIME") now with
      | none => .aborted
      | some fromTo =>
        let result :=
          if tr.To = "now" then colTy.1 ++ " >= " ++ fromTo.1
          else colTy.1 ++ " BETWEEN " ++ fromTo.1 ++ " AND " ++ fromTo.2
        .ok (replaceAll q "$timeFilter" result)

/-- Matching of the Go regular expression `\$\w*` used by `Parse`'s
leftover-placeholder scan: at a given position the pattern needs the
character `$` there, after which `\w*` always succeeds (it may match the
empty string), so `MatchString` fires exactly when the string contains a
dollar sign anywhere. -/
def dollarScanMatches (s : String) : Bool :=
  s.toList.any (fun c => c == '$')

/-- The substitution pipeline of `QueryParser.Parse` before its final scan:
trim, then `$interval`, `$timeSeries`, `$table`, `$timeFilter` in that
order, propagating errors (and aborts) as the Go code's early returns do. -/
def substitutePipeline (m : Model) (tr : TimeRange) (now : Int) :
    Outcome QPErr String :=
  match m.query with
  | none => .err .missingQuery
  | some query =>
    match ParseInterval (trimSpace query) m with
    | none => .aborted
    | some q1 =>
      match ParseTimeSeries q1 m with
      | .err e => .err e
      | .aborted => .aborted
      | .ok q2 =>
        match ParseTimeFilter (ParseTable q2 m) m tr now with
        | .err e => .err e
        | .aborted => .aborted
        | .ok q4 => .ok q4

/-- Transcription of `QueryParser.Parse`: the pipeline above followed by the
`\$\w*` leftover scan, which turns any remaining dollar sign into the
unsupported-placeholder error. -/
def Parse (m : Model) (tr : TimeRange) (now : Int) : Outcome QPErr String :=
  match substitutePipeline m tr now with
  | .ok fq =>
    if dollarScanMatches fq then .err .unsupportedPlaceholder else .ok fq
  | .err e => .err e
  | .aborted => .aborted

/-! ## Result pivot transform (`clickhouse.go`, `buildSeries`) -/

/-- A scalar cell as decoded by `encoding/json` into `interface{}`: a JSON
string, a JSON number (the development only exercises integral numbers,
which `fmt.Sprint` prints without a decimal point), or JSON null. -/
inductive CellVal
  | str : String → CellVal
  | num : Int → CellVal
  | null : CellVal
deriving DecidableEq, Repr

/-- A result row: the `map[string]interface{}` of one data element, as an
association list with distinct keys.  Go iterates a map in unspecified
order; the embedding iterates in list order, and no theorem below depends
on that order (two distinct column names always feed distinct series
keys). -/
abbrev Row : Type := List (String × CellVal)

/-- One entry of the response's `meta` array. -/
structure MetaCol where
  name : String
  type : String
deriving DecidableEq, Repr

/-- The decoded `clickhouseResponse`. -/
structure ClickhouseResponse where
  meta : List MetaCol
  data : List Row
  rows : Int
deriving DecidableEq, Repr

/-- `fmt.Sprint` of a map access `row[name]`: a missing key or a JSON null
is the nil interface, printed `"<nil>"`; a string prints itself; an
integral number prints in decimal. -/
def goSprintCell : Option CellVal → String
  | none => "<nil>"
  | some (.str s) => s
  | some (.num n) => toString n
  | some .null => "<nil>"

/-- Map lookup `row[k]`. -/
def rowLookup (row : Row) (k : String) : Option CellVal :=
  match row with
  | [] => none
  | kv :: rest => if kv.1 = k then some kv.2 else rowLookup rest k

/-- One point `(value, timestamp)` and the accumulating
`map[string]tsdb.TimeSeriesPoints`, as an association list in key
first-insertion order. -/
abbrev PMap : Type := List (String × List (GoFloat × GoFloat))

/-- `points[key] = append(points[key], p)`: append to the existing entry or
create a new one. -/
def addPoint (pts : PMap) (key : String) (p : GoFloat × GoFloat) : PMap :=
  match pts with
  | [] => [(key, [p])]
  | kv :: rest =>
    if kv.1 = key then (kv.1, kv.2 ++ [p]) :: rest
    else kv :: addPoint rest key p

/-- A point is recorded in the accumulating map under a given series key.
This is the observation the point-emission theorems speak about: membership
of `p` in the point sequence stored for `key`. -/
def hasPoint (pts : PMap) (key : String) (p : GoFloat × GoFloat) : Prop :=
  ∃ ps, (key, ps) ∈ pts ∧ p ∈ ps

/-- The series-name loop body: a metadata column other than the time column
whose row value fails the numeric parse contributes `"." ++ value` to the
name and its column name to `stringColumns`. -/
def nameAccum (tc : String) (row : Row) (acc : String × List String) (m : MetaCol) :
    String × List String :=
  if m.name = tc then acc
  else
    let columnValue := goSprintCell (rowLookup row m.name)
    match goParseFloat columnValue with
    | some _ => acc
    | none => (acc.1 ++ "." ++ columnValue, acc.2 ++ [m.name])

/-- The point-emission loop body: a row entry that is not the time column
and not one of this row's string columns and whose value parses numerically
appends a point under `seriesName ++ "." ++ columnName`. -/
def emitStep (tc : String) (stringCols : List String) (seriesName : String) (t : GoFloat)
    (pts : PMap) (kv : String × CellVal) : PMap :=
  if kv.1 = tc ∨ stringCols.contains kv.1 then pts
  else
    match goParseFloat (goSprintCell (some kv.2)) with
    | none => pts
    | some v => addPoint pts (seriesName ++ "." ++ kv.1) (v, t)

/-- Processing of one retained row: build the series-name prefix and the
string-column set by iterating the metadata columns, then emit points by
iterating the row's own entries. -/
def rowPoints (tc : String) (meta : List MetaCol) (row : Row) (t : GoFloat) (pts : PMap) :
    PMap :=
  let acc := List.foldl (nameAccum tc row) ("", []) meta
  List.foldl (emitStep tc acc.2 acc.1 t) pts row

/-- The time-range check of `buildSeries`: a row is skipped when a range is
supplied and its timestamp falls strictly outside it. -/
def outsideRange (filter : Option (GoFloat × GoFloat)) (t : GoFloat) : Bool :=
  match filter with
  | none => false
  | some fr => t.ltB fr.1 || fr.2.ltB t

/-- The row loop of `buildSeries`: each row's time value is parsed first (a
failure is fatal for the whole transform), then the row is either skipped
by the range check or folded into the point map. -/
def buildPoints (tc : String) (meta : List MetaCol) (filter : Option (GoFloat × GoFloat)) :
    List Row → PMap → Except String PMap
  | [], pts => .ok pts
  | row :: rest, pts =>
    let timeString := goSprintCell (rowLookup row tc)
    match goParseFloat timeString with
    | none => .error ("Cannot parse float " ++ timeString)
    | some t =>
      if outsideRange filter t then
        buildPoints tc meta filter rest pts
      else
        buildPoints tc meta filter rest (rowPoints tc meta row t pts)

/-- One emitted series. -/
structure TimeSeries where
  name : String
  points : List (GoFloat × GoFloat)
deriving DecidableEq, Repr

/-- Transcription of `Clickhouse.buildSeries`.  The time column is read as
`Meta[0].Name` with no emptiness check, so an empty `meta` is the Go index
out of range, modelled by `aborted`.  The `timeRange` pointer's external
`GetFromAsMsEpoch`/`GetToAsMsEpoch` conversions are abstracted into the
optional pre-computed `(fromMs, toMs)` pair (`none` for a nil range). -/
def buildSeries (resp : ClickhouseResponse) (msRange : Option (GoFloat × GoFloat)) :
    Outcome String (List TimeSeries) :=
  match resp.meta with
  | [] => .aborted
  | m0 :: _ =>
    match buildPoints m0.name resp.meta msRange resp.data [] with
    | .error e => .err e
    | .ok pts => .ok (pts.map (fun kv => ⟨kv.1, kv.2⟩))

/-! ## Query orchestrator (`clickhouse.go`, `Query` / `executeQuery`) -/

/-- Outcome of the external side of one query execution: `http.Get`
failure, body read failure, `json.Unmarshal` failure, or a decoded
response.  `executeQuery` sends the generated query string (with the
`FORMAT JSON` suffix) and receives one of these. -/
inductive FetchResult
  | transportErr
  | readErr
  | jsonErr
  | ok : ClickhouseResponse → FetchResult

/-- The error attached to a single query's result. -/
inductive QErr
  | parseErr : QPErr → QErr
  | transport
  | readBody
  | badJson
  | badFormat : String → QErr
  | seriesErr : String → QErr
deriving DecidableEq, Repr

/-- `tsdb.QueryResult`, restricted to the fields the plugin writes. -/
structure QueryResult where
  series : List TimeSeries
  error : Option QErr
deriving DecidableEq, Repr

/-- One `tsdb.Query` of a batch. -/
structure TQuery where
  refId : String
  model : Model

/-- Transcription of `Clickhouse.executeQuery`: every Go-error failure is
captured in the returned result; `none` models a run-time abort escaping
from `Parse` or `buildSeries`.  `env` is the external HTTP round trip,
applied to the query text with its `FORMAT JSON` suffix, and `msRange` the
externally converted millisecond bounds of the shared time range. -/
def executeQuery (env : String → FetchResult) (q : TQuery) (tr : TimeRange) (now : Int)
    (msRange : Option (GoFloat × GoFloat)) : Option QueryResult :=
  match Parse q.model tr now with
  | .aborted => none
  | .err e => some ⟨[], some (.parseErr e)⟩
  | .ok queryString =>
    match env (queryString ++ " FORMAT JSON") with
    | .transportErr => some ⟨[], some .transport⟩
    | .readErr => some ⟨[], some .readBody⟩
    | .jsonErr => some ⟨[], some .badJson⟩
    | .ok resp =>
      let format := q.model.format.getD "time_series"
      if format = "time_series" then
        match buildSeries resp msRange with
        | .aborted => none
        | .err e => some ⟨[], some (.seriesErr e)⟩
        | .ok series => some ⟨series, none⟩
      else
        some ⟨[], some (.badFormat format)⟩

/-- Go map assignment `m[k] = v`: replace the entry if the key exists,
append it otherwise. -/
def mapInsert (m : List (String × QueryResult)) (k : String) (v : QueryResult) :
    List (String × QueryResult) :=
  match m with
  | [] => [(k, v)]
  | kv :: rest =>
    if kv.1 = k then (k, v) :: rest
    else kv :: mapInsert rest k v

/-- The loop of `Clickhouse.Query`: every query of the batch is executed and
its result stored under its `RefId`; an abort in any single execution
aborts the whole batch (`none`). -/
def queryLoop (env : String → FetchResult) (tr : TimeRange) (now : Int)
    (msRange : Option (GoFloat × GoFloat)) :
    List TQuery → List (String × QueryResult) → Option (List (String × QueryResult))
  | [], acc => some acc
  | q :: rest, acc =>
    match executeQuery env q tr now msRange with
    | none => none
    | some r => queryLoop env tr now msRange rest (mapInsert acc q.refId r)

/-- Transcription of `Clickhouse.Query`: the `Results` map built from an
empty map by the loop above. -/
def Query (env : String → FetchResult) (queries : List TQuery) (tr : TimeRange)
    (now : Int) (msRange : Option (GoFloat × GoFloat)) :
    Option (List (String × QueryResult)) :=
  queryLoop env tr now msRange queries []

/-! ## Theorems about the claims -/

/-- C1: `IntervalToSeconds` honours the documented valid cases (`"5m"` is
300, `"2h"` is 7200) and falls back to 1 on the empty string and on a
matched input with zero value, but on `"abc"` it does not return 1: the
regexp does not match, `FindAllStringSubmatch` returns `nil`, and indexing
`matches[0]` aborts the process (modelled by `none`), so the function is
not total and lenient as claimed. -/
theorem intervalToSeconds_lenient_eval :
    IntervalToSeconds "5m" = some 300 ∧ IntervalToSeconds "2h" = some 7200
    ∧ IntervalToSeconds "" = some 1 ∧ IntervalToSeconds "0m" = some 1
    ∧ IntervalToSeconds "abc" = none := by
  decide

/-- C2 (counterexample): with a resolved column of type DATE the emitted
`$timeSeries` bucketing expression contains no `toUInt32` widening, and
with a DATETIME column it does — the opposite of the claimed direction. -/
theorem parseTimeSeries_date_cast_counterexample :
    GetDateTimeColumn ⟨none, none, none, none, some "d", none, none, none, none⟩
      = Except.ok ("d", "DATE")
    ∧ ParseTimeSeries "SELECT $timeSeries"
        ⟨none, none, none, none, some "d", none, none, none, none⟩
      = .ok "SELECT (intDiv(d, 1) * 1) * 1000"
    ∧ strContains "SELECT (intDiv(d, 1) * 1) * 1000" "toUInt32" = false
    ∧ ParseTimeSeries "SELECT $timeSeries"
        ⟨none, none, none, some "ts", none, none, none, none, none⟩
      = .ok "SELECT (intDiv(toUInt32(ts), 1) * 1) * 1000" := by
  decide

/-- C2 (amended): for every query containing `$timeSeries` with a resolved
time column and a non-aborting interval, each occurrence is replaced by the
bucketing expression, which carries the `toUInt32` widening exactly when
the resolved type is DATETIME and omits it otherwise (in particular for
DATE); apart from that cast the arithmetic text is identical. -/
theorem parseTimeSeries_cast_by_resolved_type (q : String) (m : Model) (col ty : String)
    (i : Int) (hq : strContains q "$timeSeries" = true)
    (hcol : GetDateTimeColumn m = Except.ok (col, ty))
    (hi : GetInterval m = some i) :
    ParseTimeSeries q m = .ok (replaceAll q "$timeSeries" (timeSeriesExpr col i ty))
    ∧ (ty = "DATETIME" →
        timeSeriesExpr col i ty
          = "(intDiv(toUInt32(" ++ col ++ "), " ++ toString i ++ ") * "
              ++ toString i ++ ") * 1000")
    ∧ (ty ≠ "DATETIME" →
        timeSeriesExpr col i ty
          = "(intDiv(" ++ col ++ ", " ++ toString i ++ ") * "
              ++ toString i ++ ") * 1000") := by
  refine ⟨?_, ?_, ?_⟩
  · simp [ParseTimeSeries, hq, hcol, hi]
  · intro hty; simp [timeSeriesExpr, hty]
  · intro hty; simp [timeSeriesExpr, hty]

/-- Witness for C2's amended theorem at a concrete DATE-typed model. -/
theorem parseTimeSeries_cast_by_resolved_type_witness :
    ParseTimeSeries "SELECT $timeSeries"
        ⟨none, none, none, none, some "d", none, none, none, none⟩
      = .ok (replaceAll "SELECT $timeSeries" "$timeSeries" (timeSeriesExpr "d" 1 "DATE")) :=
  (parseTimeSeries_cast_by_resolved_type "SELECT $timeSeries"
    ⟨none, none, none, none, some "d", none, none, none, none⟩ "d" "DATE" 1
    (by decide) (by decide) (by decide)).1

/-- C3: with interval `"10s"` and factor 3 the effective interval is 30,
but `$interval` is substituted through Go's `string(int)` conversion, which
yields the single rune U+001E rather than the decimal text `"30"`. -/
theorem parseInterval_rune_substitution :
    GetInterval ⟨none, none, none, none, none, none, some "10s", some 3, none⟩ = some 30
    ∧ ParseInterval "SELECT $interval"
        ⟨none, none, none, none, none, none, some "10s", some 3, none⟩
      = some ("SELECT " ++ String.mk [Char.ofNat 30])
    ∧ ("SELECT " ++ String.mk [Char.ofNat 30]) ≠ "SELECT 30" := by
  decide

/-- Helper for C4: the row loop returns an error exactly when some row's
time value fails the float parse; the parse precedes the range check, so no
row escapes it. -/
theorem buildPoints_error_iff (tc : String) (meta : List MetaCol)
    (filter : Option (GoFloat × GoFloat)) (rows : List Row) :
    ∀ pts, (∃ e, buildPoints tc meta filter rows pts = .error e)
      ↔ ∃ row ∈ rows, goParseFloat (goSprintCell (rowLookup row tc)) = none := by
  induction rows with
  | nil => intro pts; simp [buildPoints]
  | cons row rest ih =>
    intro pts
    cases hp : goParseFloat (goSprintCell (rowLookup row tc)) with
    | none => simp [buildPoints, hp]
    | some t =>
      by_cases hs : outsideRange filter t = true
      · simp [buildPoints, hp, hs, ih]
      · simp [buildPoints, hp, hs, ih]

/-- C4: with non-empty column metadata, the pivot transform returns an
error (the cannot-parse-float error is the only one it produces) if and
only if some row's time-column value fails to parse as a number; when every
row's time value parses, the transform succeeds and no error is returned. -/
theorem buildSeries_malformed_time_iff (resp : ClickhouseResponse)
    (msRange : Option (GoFloat × GoFloat)) (m0 : MetaCol) (ms : List MetaCol)
    (h : resp.meta = m0 :: ms) :
    (∃ e, buildSeries resp msRange = .err e)
      ↔ ∃ row ∈ resp.data, goParseFloat (goSprintCell (rowLookup row m0.name)) = none := by
  rw [← buildPoints_error_iff m0.name (m0 :: ms) msRange resp.data []]
  cases hbp : buildPoints m0.name (m0 :: ms) msRange resp.data [] with
  | error e => simp [buildSeries, h, hbp]
  | ok pts => simp [buildSeries, h, hbp]

/-- Witness for C4 at a one-row response whose time value is not numeric. -/
theorem buildSeries_malformed_time_witness :
    ∃ e, buildSeries ⟨[⟨"t", "String"⟩], [[("t", CellVal.str "not-a-number")]], 1⟩ none
      = .err e :=
  (buildSeries_malformed_time_iff
      ⟨[⟨"t", "String"⟩], [[("t", CellVal.str "not-a-number")]], 1⟩ none
      ⟨"t", "String"⟩ [] rfl).mpr
    ⟨[("t", CellVal.str "not-a-number")], by simp, by decide⟩

/-- C5: the pivot of columns `[t, host, value]` over the three sample rows
with no time filter yields exactly the two series `.a.value` (points
`(5, 1000)` then `(9, 2000)`, in row order) and `.b.value` (point
`(7, 1000)`). -/
theorem buildSeries_pivot_example :
    buildSeries
      ⟨[⟨"t", "UInt64"⟩, ⟨"host", "String"⟩, ⟨"value", "UInt64"⟩],
       [[("t", .num 1000), ("host", .str "a"), ("value", .num 5)],
        [("t", .num 1000), ("host", .str "b"), ("value", .num 7)],
        [("t", .num 2000), ("host", .str "a"), ("value", .num 9)]], 3⟩ none
      = .ok [⟨".a.value", [(5, 1000), (9, 2000)]⟩, ⟨".b.value", [(7, 1000)]⟩] := by
  decide

/-- C6: with a DATETIME column and `To = "now"` the predicate is the
single-sided `ts >= <raw epoch>`, with a DATE column the literal is
`toDate(...)`-wrapped; but for the non-`"now"` endpoint `"6h-ago"` the
code does not emit `BETWEEN` — `IntervalToSeconds` is applied to the whole
dash-carrying string, its regexp fails to match, and the process aborts. -/
theorem parseTimeFilter_predicate_eval :
    ParseTimeFilter "$timeFilter" ⟨none, none, none, some "ts", none, none, none, none, none⟩
        ⟨"12h", "now"⟩ 1700000000 = .ok "ts >= 1699956800"
    ∧ ParseTimeFilter "$timeFilter" ⟨none, none, none, none, some "d", none, none, none, none⟩
        ⟨"12h", "now"⟩ 1700000000 = .ok "d >= toDate(1699956800)"
    ∧ ParseTimeFilter "$timeFilter" ⟨none, none, none, some "ts", none, none, none, none, none⟩
        ⟨"12h", "6h-ago"⟩ 1700000000 = .aborted := by
  decide

/-- C7: a query whose failure is a returned error (here: no resolvable time
column) is captured as its own entry while its sibling still succeeds; but
a query whose processing aborts (here: `$interval` with the malformed
interval `"abc"`, which makes `IntervalToSeconds` index a nil slice) takes
the whole batch down with it, producing no results map at all. -/
theorem query_batch_eval :
    Query (fun _ => FetchResult.ok ⟨[⟨"t", "UInt64"⟩], [[("t", CellVal.num 1000)]], 1⟩)
        [⟨"A", ⟨some "select $timeFilter", none, none, none, none, none, none, none, none⟩⟩,
         ⟨"B", ⟨some "select 1", none, none, none, none, none, none, none, none⟩⟩]
        ⟨"12h", "now"⟩ 1700000000 none
      = some [("A", ⟨[], some (.parseErr .noTimeColumn)⟩), ("B", ⟨[], none⟩)]
    ∧ Query (fun _ => FetchResult.ok ⟨[⟨"t", "UInt64"⟩], [[("t", CellVal.num 1000)]], 1⟩)
        [⟨"P", ⟨some "select $interval", none, none, none, none, none, some "abc", none, none⟩⟩,
         ⟨"B", ⟨some "select 1", none, none, none, none, none, none, none, none⟩⟩]
        ⟨"12h", "now"⟩ 1700000000 none
      = none := by
  decide

/-- C8: `buildSeries` reads `Meta[0].Name` unconditionally, so a response
with empty column metadata aborts with the index-out-of-range run-time
error instead of returning an error value. -/
theorem buildSeries_empty_meta_aborts (resp : ClickhouseResponse)
    (msRange : Option (GoFloat × GoFloat)) (h : resp.meta = []) :
    buildSeries resp msRange = .aborted := by
  simp [buildSeries, h]

/-- Witness for C8 at a concrete empty-metadata response. -/
theorem buildSeries_empty_meta_aborts_witness :
    buildSeries ⟨[], [[("t", CellVal.num 1)]], 1⟩ none = .aborted :=
  buildSeries_empty_meta_aborts ⟨[], [[("t", CellVal.num 1)]], 1⟩ none rfl

/-- C9: the leftover scan's pattern `\$\w*` fires on any remaining dollar
sign (`\w*` matches the empty string), so whenever the fully substituted
query still contains a dollar sign — even one not followed by any word
character — `Parse` fails with the unsupported-placeholder error. -/
theorem parse_rejects_any_dollar (m : Model) (tr : TimeRange) (now : Int) (fq : String)
    (h1 : substitutePipeline m tr now = .ok fq)
    (h2 : dollarScanMatches fq = true) :
    Parse m tr now = .err .unsupportedPlaceholder := by
  simp [Parse, h1, h2]

/-- Witness for C9 at a query whose only dollar sign is followed by a
space, hence by zero word characters. -/
theorem parse_rejects_any_dollar_witness :
    substitutePipeline ⟨some "select a$ b", none, none, none, none, none, none, none, none⟩
        ⟨"12h", "now"⟩ 5 = .ok "select a$ b"
    ∧ dollarScanMatches "select a$ b" = true
    ∧ Parse ⟨some "select a$ b", none, none, none, none, none, none, none, none⟩
        ⟨"12h", "now"⟩ 5 = .err .unsupportedPlaceholder :=
  ⟨by decide, by decide,
    parse_rejects_any_dollar ⟨some "select a$ b", none, none, none, none, none, none, none, none⟩
      ⟨"12h", "now"⟩ 5 "select a$ b" (by decide) (by decide)⟩

/-- Helper for C10: every column name the name loop classifies as a string
column comes from the accumulator or from a metadata column — the loop
iterates the metadata only. -/
theorem nameAccum_stringCols_subset (tc : String) (row : Row) (meta : List MetaCol) :
    ∀ (acc : String × List String) (x : String),
      x ∈ (List.foldl (nameAccum tc row) acc meta).2 →
        x ∈ acc.2 ∨ ∃ m ∈ meta, m.name = x := by
  induction meta with
  | nil => intro acc x h; exact Or.inl h
  | cons m rest ih =>
    intro acc x h
    rcases ih (nameAccum tc row acc m) x h with hacc | ⟨m2, hm2, hname⟩
    · simp only [nameAccum] at hacc
      split at hacc
      · exact Or.inl hacc
      · split at hacc
        · exact Or.inl hacc
        · rcases List.mem_append.mp hacc with h1 | h2
          · exact Or.inl h1
          · exact Or.inr ⟨m, List.mem_cons_self m rest, (List.mem_singleton.mp h2).symm⟩
    · exact Or.inr ⟨m2, List.mem_cons_of_mem m hm2, hname⟩

/-- Helper for C10: `addPoint` records the appended point under its key. -/
theorem hasPoint_addPoint_self (pts : PMap) (key : String) (p : GoFloat × GoFloat) :
    hasPoint (addPoint pts key p) key p := by
  induction pts with
  | nil => exact ⟨[p], List.mem_singleton.mpr rfl, List.mem_singleton.mpr rfl⟩
  | cons kv rest ih =>
    simp only [addPoint]
    split
    · rename_i heq
      exact ⟨kv.2 ++ [p], by rw [← heq]; exact List.mem_cons_self _ _,
        List.mem_append_right _ (List.mem_singleton.mpr rfl)⟩
    · rcases ih with ⟨ps, hmem, hp⟩
      exact ⟨ps, List.mem_cons_of_mem _ hmem, hp⟩

/-- Helper for C10: `addPoint` never removes a recorded point. -/
theorem hasPoint_addPoint_mono (pts : PMap) (k2 : String) (p2 : GoFloat × GoFloat)
    (key : String) (p : GoFloat × GoFloat) :
    hasPoint pts key p → hasPoint (addPoint pts k2 p2) key p := by
  induction pts with
  | nil =>
    intro h
    rcases h with ⟨ps, hmem, _⟩
    exact absurd hmem (List.not_mem_nil _)
  | cons kv rest ih =>
    intro h
    rcases h with ⟨ps, hmem, hp⟩
    simp only [addPoint]
    split
    · rcases List.mem_cons.mp hmem with hhead | htail
      · refine ⟨kv.2 ++ [p2], ?_, ?_⟩
        · have hkey : key = kv.1 := congrArg Prod.fst hhead
          rw [hkey]
          exact List.mem_cons_self _ _
        · have hps : ps = kv.2 := congrArg Prod.snd hhead
          exact List.mem_append_left _ (hps ▸ hp)
      · exact ⟨ps, List.mem_cons_of_mem _ htail, hp⟩
    · rcases List.mem_cons.mp hmem with hhead | htail
      · exact ⟨ps, hhead ▸ List.mem_cons_self _ _, hp⟩
      · rcases ih ⟨ps, htail, hp⟩ with ⟨ps2, hmem2, hp2⟩
        exact ⟨ps2, List.mem_cons_of_mem _ hmem2, hp2⟩

/-- Helper for C10: one point-emission step never removes a recorded
point. -/
theorem hasPoint_emitStep_mono (tc : String) (sc : List String) (sn : String) (t : GoFloat)
    (pts : PMap) (kv : String × CellVal) (key : String) (p : GoFloat × GoFloat) :
    hasPoint pts key p → hasPoint (emitStep tc sc sn t pts kv) key p := by
  intro h
  simp only [emitStep]
  split
  · exact h
  · split
    · exact h
    · exact hasPoint_addPoint_mono pts _ _ key p h

/-- Helper for C10: the point-emission fold over a row never removes a
recorded point. -/
theorem hasPoint_foldl_emit_mono (tc : String) (sc : List String) (sn : String)
    (t : GoFloat) (key : String) (p : GoFloat × GoFloat) (row : Row) :
    ∀ pts, hasPoint pts key p →
      hasPoint (List.foldl (emitStep tc sc sn t) pts row) key p := by
  induction row with
  | nil => intro pts h; simpa using h
  | cons kv rest ih =>
    intro pts h
    simp only [List.foldl]
    exact ih _ (hasPoint_emitStep_mono tc sc sn t pts kv key p h)

/-- Helper for C10: processing a whole row never removes a recorded
point. -/
theorem hasPoint_rowPoints_mono (tc : String) (meta : List MetaCol) (row : Row)
    (t : GoFloat) (pts : PMap) (key : String) (p : GoFloat × GoFloat) :
    hasPoint pts key p → hasPoint (rowPoints tc meta row t pts) key p := by
  intro h
  simp only [rowPoints]
  exact hasPoint_foldl_emit_mono _ _ _ _ key p row pts h

/-- Helper for C10: a successful run of the row loop never removes a
recorded point. -/
theorem hasPoint_buildPoints_mono (tc : String) (meta : List MetaCol)
    (filter : Option (GoFloat × GoFloat)) (key : String) (p : GoFloat × GoFloat) :
    ∀ (rows : List Row) (pts final : PMap),
      buildPoints tc meta filter rows pts = .ok final →
      hasPoint pts key p → hasPoint final key p := by
  intro rows
  induction rows with
  | nil =>
    intro pts final hok h
    simp only [buildPoints] at hok
    cases hok
    exact h
  | cons row rest ih =>
    intro pts final hok h
    simp only [buildPoints] at hok
    cases hpr : goParseFloat (goSprintCell (rowLookup row tc)) with
    | none =>
      simp only [hpr] at hok
      exact Except.noConfusion hok
    | some t2 =>
      simp only [hpr] at hok
      by_cases hs : outsideRange filter t2 = true
      · rw [if_pos hs] at hok
        exact ih _ _ hok h
      · rw [if_neg hs] at hok
        exact ih _ _ hok (hasPoint_rowPoints_mono tc meta row t2 pts key p h)

/-- Helper for C10: emitting a row that carries the entry `(c, v)` — with
`c` neither the time column nor a string column and `v` numeric — records
the point `(x, t)` under the key `sn ++ "." ++ c`, whatever the incoming
map is. -/
theorem hasPoint_foldl_emit_self (tc : String) (sc : List String) (sn : String)
    (t : GoFloat) (row : Row) (pts : PMap) (c : String) (v : CellVal) (x : GoFloat)
    (hcv : (c, v) ∈ row) (hct : c ≠ tc) (hcs : c ∉ sc)
    (hx : goParseFloat (goSprintCell (some v)) = some x) :
    hasPoint (List.foldl (emitStep tc sc sn t) pts row) (sn ++ "." ++ c) (x, t) := by
  rcases List.append_of_mem hcv with ⟨r1, r2, rfl⟩
  rw [List.foldl_append]
  simp only [List.foldl]
  have hstep : ∀ q, emitStep tc sc sn t q (c, v) = addPoint q (sn ++ "." ++ c) (x, t) := by
    intro q
    simp only [emitStep]
    rw [if_neg, hx]
    intro hor
    rcases hor with h1 | h2
    · exact hct h1
    · exact hcs (List.mem_of_elem_eq_true h2)
  rw [hstep]
  exact hasPoint_foldl_emit_mono tc sc sn t (sn ++ "." ++ c) (x, t) r2 _
    (hasPoint_addPoint_self _ _ _)

/-- Helper for C10: processing one retained row that carries a numeric
entry under a column name absent from the metadata records its point under
the metadata-built series-name prefix followed by that column name. -/
theorem hasPoint_rowPoints_self (tc : String) (meta : List MetaCol) (row : Row)
    (t : GoFloat) (pts : PMap) (c : String) (v : CellVal) (x : GoFloat)
    (hcv : (c, v) ∈ row) (hct : c ≠ tc) (hcm : ∀ m ∈ meta, m.name ≠ c)
    (hx : goParseFloat (goSprintCell (some v)) = some x) :
    hasPoint (rowPoints tc meta row t pts)
      ((List.foldl (nameAccum tc row) ("", []) meta).1 ++ "." ++ c) (x, t) := by
  have hcs : c ∉ (List.foldl (nameAccum tc row) ("", []) meta).2 := by
    intro hmem
    rcases nameAccum_stringCols_subset tc row meta ("", []) c hmem with h1 | ⟨m, hm, hname⟩
    · exact absurd h1 (List.not_mem_nil c)
    · exact hcm m hm hname
  simp only [rowPoints]
  exact hasPoint_foldl_emit_self tc _ _ t row pts c v x hcv hct hcs hx

/-- Helper for C10: through the whole row loop, any retained row carrying a
numeric entry under a metadata-absent column name contributes its point to
the final map. -/
theorem hasPoint_buildPoints_self (tc : String) (meta : List MetaCol)
    (filter : Option (GoFloat × GoFloat)) (row : Row) (c : String) (v : CellVal)
    (t x : GoFloat) (hct : c ≠ tc) (hcm : ∀ m ∈ meta, m.name ≠ c)
    (hcv : (c, v) ∈ row) (hx : goParseFloat (goSprintCell (some v)) = some x)
    (ht : goParseFloat (goSprintCell (rowLookup row tc)) = some t)
    (hret : outsideRange filter t = false) :
    ∀ (rows : List Row) (pts final : PMap),
      buildPoints tc meta filter rows pts = .ok final → row ∈ rows →
      hasPoint final ((List.foldl (nameAccum tc row) ("", []) meta).1 ++ "." ++ c) (x, t) := by
  intro rows
  induction rows with
  | nil =>
    intro pts final _ hmem
    exact absurd hmem (List.not_mem_nil _)
  | cons r rest ih =>
    intro pts final hok hmem
    simp only [buildPoints] at hok
    rcases List.mem_cons.mp hmem with rfl | hmem2
    · simp only [ht] at hok
      rw [if_neg (by simp [hret])] at hok
      exact hasPoint_buildPoints_mono tc meta filter _ _ rest _ final hok
        (hasPoint_rowPoints_self tc meta row t pts c v x hcv hct hcm hx)
    · cases hpr : goParseFloat (goSprintCell (rowLookup r tc)) with
      | none =>
        simp only [hpr] at hok
        exact Except.noConfusion hok
      | some t2 =>
        simp only [hpr] at hok
        by_cases hs : outsideRange filter t2 = true
        · rw [if_pos hs] at hok
          exact ih _ _ hok hmem2
        · rw [if_neg hs] at hok
          exact ih _ _ hok hmem2

/-- C10: for every response and every retained row carrying an entry under
a column name `c` absent from the declared metadata, a numeric value for
that entry still produces a point in the emitted series keyed
`<seriesNamePrefix> ++ "." ++ c` (the prefix being the one the name loop
builds by folding over the metadata columns only), while `c` is never
classified as a string/dimensional column, so it contributes no name
fragment: point emission iterates the row's own map, name construction the
metadata. -/
theorem buildSeries_extra_column_point (resp : ClickhouseResponse)
    (msRange : Option (GoFloat × GoFloat)) (m0 : MetaCol) (ms : List MetaCol)
    (series : List TimeSeries) (row : Row) (c : String) (v : CellVal) (t x : GoFloat)
    (hmeta : resp.meta = m0 :: ms)
    (hok : buildSeries resp msRange = .ok series)
    (hrow : row ∈ resp.data)
    (ht : goParseFloat (goSprintCell (rowLookup row m0.name)) = some t)
    (hret : outsideRange msRange t = false)
    (hcv : (c, v) ∈ row)
    (hcmeta : ∀ m ∈ resp.meta, m.name ≠ c)
    (hx : goParseFloat (goSprintCell (some v)) = some x) :
    c ∉ (List.foldl (nameAccum m0.name row) ("", []) resp.meta).2
    ∧ ∃ ps,
        (⟨(List.foldl (nameAccum m0.name row) ("", []) resp.meta).1 ++ "." ++ c, ps⟩
          : TimeSeries) ∈ series
        ∧ (x, t) ∈ ps := by
  have hct : c ≠ m0.name := by
    intro h
    exact hcmeta m0 (by rw [hmeta]; exact List.mem_cons_self _ _) h.symm
  have hcm : ∀ m ∈ m0 :: ms, m.name ≠ c := by
    intro m hm
    exact hcmeta m (by rw [hmeta]; exact hm)
  rw [hmeta]
  constructor
  · intro hmem
    rcases nameAccum_stringCols_subset m0.name row (m0 :: ms) ("", []) c hmem with
      h1 | ⟨m, hm, hname⟩
    · exact absurd h1 (List.not_mem_nil c)
    · exact hcm m hm hname
  · simp only [buildSeries, hmeta] at hok
    cases hbp : buildPoints m0.name (m0 :: ms) msRange resp.data [] with
    | error e => rw [hbp] at hok; exact Outcome.noConfusion hok
    | ok pts =>
      rw [hbp] at hok
      have hser : series = pts.map (fun kv => (⟨kv.1, kv.2⟩ : TimeSeries)) := by
        cases hok; rfl
      have hfin := hasPoint_buildPoints_self m0.name (m0 :: ms) msRange row c v t x
        hct hcm hcv hx ht hret resp.data [] pts hbp hrow
      rcases hfin with ⟨ps, hmem, hp⟩
      refine ⟨ps, ?_, hp⟩
      rw [hser]
      exact List.mem_map_of_mem _ hmem

/-- Witness for C10: metadata `[t, host]`, one row with the dimensional
value `"a"` (so the series-name prefix `.a` is non-empty) and a numeric
entry under `"extra"`, a column name absent from the metadata; the emitted
series `.a.extra` carries the point. -/
theorem buildSeries_extra_column_point_witness :
    "extra" ∉ (List.foldl
        (nameAccum "t" [("t", CellVal.num 1000), ("host", CellVal.str "a"),
          ("extra", CellVal.num 7)])
        ("", []) [⟨"t", "UInt64"⟩, ⟨"host", "String"⟩]).2
    ∧ ∃ ps,
        (⟨(List.foldl
            (nameAccum "t" [("t", CellVal.num 1000), ("host", CellVal.str "a"),
              ("extra", CellVal.num 7)])
            ("", []) [⟨"t", "UInt64"⟩, ⟨"host", "String"⟩]).1 ++ "." ++ "extra", ps⟩
          : TimeSeries) ∈ [(⟨".a.extra", [(7, 1000)]⟩ : TimeSeries)]
        ∧ ((7 : GoFloat), (1000 : GoFloat)) ∈ ps :=
  buildSeries_extra_column_point
    ⟨[⟨"t", "UInt64"⟩, ⟨"host", "String"⟩],
     [[("t", CellVal.num 1000), ("host", CellVal.str "a"), ("extra", CellVal.num 7)]], 1⟩
    none ⟨"t", "UInt64"⟩ [⟨"host", "String"⟩] [⟨".a.extra", [(7, 1000)]⟩]
    [("t", CellVal.num 1000), ("host", CellVal.str "a"), ("extra", CellVal.num 7)]
    "extra" (CellVal.num 7) 1000 7 rfl (by decide) (by decide) (by decide) (by decide)
    (by decide) (by decide) (by decide)

end ClickhousePlugin
